import Mathlib

/-!
Shallow embedding of the kopimashin-rs benchmark (`src/main.rs`) and proofs
about it.  Memory is modelled as `List Nat` (byte lists), platform-dependent
inputs (Apple-Silicon detection, the `cache_size` crate, the filesystem, the
sink) are explicit parameters, fallible operations return `Except` or
`Option`, and undefined behaviour (`unwrap_unchecked` on an error) is
modelled as `Option.none`.
-/

/-- Abstract `std::io::Error`: only its identity matters for the model. -/
structure IoErr where
  code : Nat
deriving DecidableEq, Repr

/-- Embedding of `detect_apple_silicon_specs` (src/main.rs:13-23).  The
compile-time `cfg` test for `aarch64`/`macos` is the boolean parameter; on
that platform the function returns the constants
`(128 * 1024, 12 * 1024 * 1024, 10)` (L1 data per P-core, L2, P-core count),
otherwise `None`. -/
def detect_apple_silicon_specs (isAppleArm : Bool) : Option (Nat × Nat × Nat) :=
  if isAppleArm then some (128 * 1024, 12 * 1024 * 1024, 10) else none

/-- Embedding of `detect_optimal_thread_count` (src/main.rs:26-35): the
P-core count of the Apple-Silicon specs when detected, else the default 10. -/
def detect_optimal_thread_count (isAppleArm : Bool) : Nat :=
  match detect_apple_silicon_specs isAppleArm with
  | some (_, _, p_cores) => p_cores
  | none => 10

/-- Embedding of Rust `Ord::clamp` on `usize`: `x.clamp(lo, hi)` returns
`lo` when `x < lo`, `hi` when `x > hi`, else `x`; it panics (here: `none`)
when `lo > hi`. -/
def rustClamp (x lo hi : Nat) : Option Nat :=
  if lo ≤ hi then some (if x < lo then lo else if x > hi then hi else x)
  else none

/-- Embedding of `detect_optimal_chunk_size` (src/main.rs:38-60).  The
`cache_size::l1_cache_size()` / `l2_cache_size()` query results are the
parameters `l1q`/`l2q`; Apple-Silicon specs take precedence, then the query,
then the fallbacks 32 KiB / 512 KiB.  `none` models the `clamp` panic. -/
def detect_optimal_chunk_size (isAppleArm : Bool) (l1q l2q : Option Nat) :
    Option Nat :=
  let pair :=
    match detect_apple_silicon_specs isAppleArm with
    | some (l1, l2, _) => (some l1, some l2)
    | none => (l1q, l2q)
  let l1_data_size := pair.1.getD (32 * 1024)
  let l2_size := pair.2.getD (512 * 1024)
  let min_chunk := l1_data_size
  let max_chunk := l2_size / 2
  let target_chunk := 128 * 1024
  rustClamp target_chunk min_chunk max_chunk

/-- The effective L1 data size used by `detect_optimal_chunk_size` after
platform precedence and the 32 KiB fallback (src/main.rs:40-46). -/
def effectiveL1 (isAppleArm : Bool) (l1q : Option Nat) : Nat :=
  match detect_apple_silicon_specs isAppleArm with
  | some (l1, _, _) => l1
  | none => l1q.getD (32 * 1024)

/-- The effective L2 size used by `detect_optimal_chunk_size` after platform
precedence and the 512 KiB fallback (src/main.rs:40-47). -/
def effectiveL2 (isAppleArm : Bool) (l2q : Option Nat) : Nat :=
  match detect_apple_silicon_specs isAppleArm with
  | some (_, l2, _) => l2
  | none => l2q.getD (512 * 1024)

/-- Embedding of `Config` (src/main.rs:136-140). -/
structure Config where
  thread_count : Nat
  source_file : String
  chunk_size : Nat
deriving DecidableEq, Repr

/-- Embedding of `Config::default` (src/main.rs:142-150); `none` when
`detect_optimal_chunk_size` panics in `clamp`. -/
def Config.mkDefault (isAppleArm : Bool) (l1q l2q : Option Nat) :
    Option Config :=
  match detect_optimal_chunk_size isAppleArm l1q l2q with
  | some cs =>
      some { thread_count := detect_optimal_thread_count isAppleArm
             source_file := "test_data.bin"
             chunk_size := cs }
  | none => none

/-- Embedding of the compile-time constant `BATCH_SIZE` (src/main.rs:158). -/
def BATCH_SIZE : Nat := 1024 * 1024

/-- Embedding of Rust `slice::chunks(c)` as used in
`write_mapped_data_vectored` (src/main.rs:186): contiguous pieces of `c`
elements each, the last possibly shorter.  Rust panics on `c = 0`; that case
yields `[]` here and is never reached (the only call site passes
`BATCH_SIZE > 0`). -/
def chunksList (c : Nat) : List α → List (List α)
  | [] => []
  | x :: rest =>
    if _h : c = 0 then []
    else (x :: rest).take c :: chunksList c ((x :: rest).drop c)
termination_by xs => xs.length
decreasing_by
  simp only [List.length_drop, List.length_cons]
  omega

/-- Outcome of one `MappedWriter::write_mapped_data_vectored` call
(src/main.rs:181-200): the `IoSlice` segments built from the view, the
number of vectored write syscalls performed, and the returned value.
`result = none` models the undefined behaviour of `unwrap_unchecked` when
the sink's `write_vectored` returns an error (src/main.rs:195-197). -/
structure WriteOutcome where
  io_vectors : List (List Nat)
  syscalls : Nat
  result : Option (Except IoErr Unit)

/-- Embedding of `MappedWriter::write_mapped_data_vectored`
(src/main.rs:181-200).  The sink (`/dev/null` handle) is modelled by
`sinkWrite`, mapping the submitted segment list to the syscall's result.
The segment list is rebuilt from the view with `chunks(BATCH_SIZE)` and
submitted in one `write_vectored` call whose result is consumed with
`unwrap_unchecked`; the function itself then returns `Ok(())`. -/
def write_mapped_data_vectored (sinkWrite : List (List Nat) → Except IoErr Nat)
    (mapped_data : List Nat) : WriteOutcome :=
  let io_vectors := chunksList BATCH_SIZE mapped_data
  match sinkWrite io_vectors with
  | .ok _ => { io_vectors := io_vectors, syscalls := 1, result := some (.ok ()) }
  | .error _ => { io_vectors := io_vectors, syscalls := 1, result := none }

/-- Embedding of `MappedDataSource` (src/main.rs:63-67): the mapped view and
its size.  The raw pointer is replaced by the byte list it points to. -/
structure MappedDataSource where
  data : List Nat
  size : Nat

/-- Platform system calls used by `MappedDataSource::from_file`, as abstract
results: `File::open`, `File::metadata().len()`, and `mmap` (which yields
the mapped view or `MAP_FAILED` as `last_os_error`). -/
structure SysEnv where
  openFile : String → Except IoErr Unit
  metadataLen : String → Except IoErr Nat
  mmapBytes : String → Except IoErr (List Nat)

/-- Embedding of `MappedDataSource::from_file` (src/main.rs:73-115): open,
read the size from metadata, map; each step's failure is returned as the
error.  Pre-faulting and `madvise` have no effect on the value model. -/
def MappedDataSource.from_file (sys : SysEnv) (path : String) :
    Except IoErr MappedDataSource :=
  match sys.openFile path with
  | .error e => .error e
  | .ok _ =>
    match sys.metadataLen path with
    | .error e => .error e
    | .ok size =>
      match sys.mmapBytes path with
      | .error e => .error e
      | .ok bytes => .ok { data := bytes, size := size }

/-- Embedding of `WorkerPool::spawn_writers` (src/main.rs:209-235): one
thread handle per `config.thread_count`; each worker runs an infinite write
loop, so only the handles matter to the value model. -/
def WorkerPool.spawn_writers (config : Config) (_data_source : MappedDataSource) :
    List Nat :=
  (List.range config.thread_count).map (fun i => i)

/-- Number of workers `main` (src/main.rs:238-276) ends up spawning:
`Config::default()` runs first (a `clamp` panic aborts with no workers),
then `from_file` (its failure hits `.expect`, aborting with no workers),
and only then `spawn_writers`. -/
def mainSpawnedWorkers (sys : SysEnv) (isAppleArm : Bool)
    (l1q l2q : Option Nat) : Nat :=
  match Config.mkDefault isAppleArm l1q l2q with
  | none => 0
  | some config =>
    match MappedDataSource.from_file sys config.source_file with
    | .error _ => 0
    | .ok data_source => (WorkerPool.spawn_writers config data_source).length

/-- The process-wide state mutated by workers: the `GLOBAL_METRICS` atomic
counter (src/main.rs:10). -/
structure PoolState where
  counter : Nat
deriving DecidableEq, Repr

/-- Embedding of `increment_global_metrics` (src/main.rs:153-155):
`fetch_add(1, Relaxed)` on the global counter. -/
def increment_global_metrics (s : PoolState) : PoolState :=
  { counter := s.counter + 1 }

/-- One scheduling step of the running system with `workerCount` workers:
some worker finishes a full write pass and increments the counter
(src/main.rs:226-231), or the monitor loads the counter (src/main.rs:288)
without modifying it.  No step decrements or resets the counter. -/
inductive BenchStep (workerCount : Nat) : PoolState → PoolState → Prop
  | workerPass (i : Nat) (hi : i < workerCount) (s : PoolState) :
      BenchStep workerCount s (increment_global_metrics s)
  | monitorLoad (s : PoolState) : BenchStep workerCount s s

/-- The monitor's retained state between reporting intervals:
`last_count` and `last_time` (src/main.rs:280-281). -/
structure MonitorState where
  last_count : Nat
  last_time : ℚ
deriving DecidableEq, Repr

/-- One sample taken at the top of a monitor iteration: the loaded counter
and the current instant (src/main.rs:288-289). -/
structure MonitorSample where
  current_count : Nat
  current_time : ℚ
deriving DecidableEq, Repr

/-- The values printed by one monitor update (src/main.rs:298-299). -/
structure MonitorOutput where
  total_writes : Nat
  writes_per_sec : ℚ
  gb_per_sec : ℚ
deriving DecidableEq, Repr

/-- Embedding of one iteration of the monitoring loop (src/main.rs:285-305):
compute `elapsed`; if positive, compute `delta_count`, `writes_per_sec =
delta / elapsed` and `gb_per_sec = delta * file_size / 1024³ / elapsed`,
print, and store the new (count, time) pair; otherwise change nothing and
print nothing.  The source computes in `f64`; the model uses `ℚ`, which
agrees wherever the `f64` operations are exact. -/
def monitorStep (file_size : Nat) (s : MonitorState) (smp : MonitorSample) :
    MonitorState × Option MonitorOutput :=
  let elapsed : ℚ := smp.current_time - s.last_time
  if elapsed > 0 then
    let delta_count : Nat := smp.current_count - s.last_count
    let writes_per_sec : ℚ := (delta_count : ℚ) / elapsed
    let gb_per_sec : ℚ :=
      ((delta_count : ℚ) * (file_size : ℚ)) / (1024 * 1024 * 1024) / elapsed
    ({ last_count := smp.current_count, last_time := smp.current_time },
      some { total_writes := smp.current_count
             writes_per_sec := writes_per_sec
             gb_per_sec := gb_per_sec })
  else
    (s, none)

/-- A system environment in which every `open` fails with OS error 2
(`ENOENT`, file not found). -/
def sysOpenFails : SysEnv where
  openFile := fun _ => Except.error { code := 2 }
  metadataLen := fun _ => Except.error { code := 2 }
  mmapBytes := fun _ => Except.error { code := 2 }

theorem chunksList_nil (c : Nat) : chunksList c ([] : List α) = [] := by
  rw [chunksList]

theorem chunksList_cons (c : Nat) (hc : c ≠ 0) (xs : List α) (hxs : xs ≠ []) :
    chunksList c xs = xs.take c :: chunksList c (xs.drop c) := by
  cases xs with
  | nil => exact absurd rfl hxs
  | cons x rest =>
    rw [chunksList]
    simp [hc]

/-- Concatenating the chunks recovers the original list: the segments are
contiguous, in order, and cover the whole view. -/
theorem chunksList_flatten (c : Nat) (hc : c ≠ 0) (xs : List α) :
    (chunksList c xs).flatten = xs := by
  by_cases hxs : xs = []
  · subst hxs
    rw [chunksList_nil]
    rfl
  · rw [chunksList_cons c hc xs hxs, List.flatten_cons,
      chunksList_flatten c hc (xs.drop c), List.take_append_drop]
termination_by xs.length
decreasing_by
  simp only [List.length_drop]
  have := List.length_pos.mpr hxs
  omega

/-- The chunk lengths sum to the length of the original list. -/
theorem chunksList_sum_length (c : Nat) (hc : c ≠ 0) (xs : List α) :
    ((chunksList c xs).map List.length).sum = xs.length := by
  have h := congrArg List.length (chunksList_flatten c hc xs)
  simpa [List.length_flatten] using h

/-- There are exactly `⌈xs.length / c⌉` chunks. -/
theorem chunksList_count (c : Nat) (hc : c ≠ 0) (xs : List α) :
    (chunksList c xs).length = (xs.length + c - 1) / c := by
  by_cases hxs : xs = []
  · subst hxs
    rw [chunksList_nil]
    have h : c - 1 < c := by omega
    simp [Nat.div_eq_of_lt h]
  · rw [chunksList_cons c hc xs hxs, List.length_cons,
      chunksList_count c hc (xs.drop c), List.length_drop]
    have hn : 0 < xs.length := List.length_pos.mpr hxs
    rcases le_or_lt xs.length c with h | h
    · have h0 : xs.length - c + c - 1 < c := by omega
      have h2 : xs.length + c - 1 = xs.length - 1 + c := by omega
      rw [Nat.div_eq_of_lt h0, h2, Nat.add_div_right _ (Nat.pos_of_ne_zero hc),
        Nat.div_eq_of_lt (show xs.length - 1 < c by omega)]
    · have h2 : xs.length + c - 1 = xs.length - c + c - 1 + c := by omega
      rw [h2, Nat.add_div_right _ (Nat.pos_of_ne_zero hc)]
termination_by xs.length
decreasing_by
  simp only [List.length_drop]
  have := List.length_pos.mpr hxs
  omega

/-- Every chunk except the last has length exactly `c`. -/
theorem chunksList_dropLast_length (c : Nat) (hc : c ≠ 0) (xs : List α) :
    ∀ l ∈ (chunksList c xs).dropLast, l.length = c := by
  by_cases hxs : xs = []
  · subst hxs
    rw [chunksList_nil]
    intro l hl
    simp at hl
  · rw [chunksList_cons c hc xs hxs]
    by_cases hd : xs.drop c = []
    · rw [hd, chunksList_nil]
      intro l hl
      simp at hl
    · have hne : chunksList c (xs.drop c) ≠ [] := by
        rw [chunksList_cons c hc _ hd]
        exact List.cons_ne_nil _ _
      rw [List.dropLast_cons_of_ne_nil hne]
      intro l hl
      rcases List.mem_cons.mp hl with rfl | hl'
      · have hlen : c ≤ xs.length := by
          by_contra hlt
          exact hd (List.drop_eq_nil_iff.mpr (by omega))
        simp [List.length_take, Nat.min_eq_left hlen]
      · exact chunksList_dropLast_length c hc (xs.drop c) l hl'
termination_by xs.length
decreasing_by
  simp only [List.length_drop]
  have := List.length_pos.mpr hxs
  omega

theorem rustClamp_isSome (x lo hi : Nat) :
    (rustClamp x lo hi).isSome ↔ lo ≤ hi := by
  unfold rustClamp
  split <;> simp_all

/-- `detect_optimal_chunk_size` is the Rust clamp of the 128 KiB target to
the effective L1 and L2/2 bounds. -/
theorem detect_optimal_chunk_size_eq (isAppleArm : Bool) (l1q l2q : Option Nat) :
    detect_optimal_chunk_size isAppleArm l1q l2q =
      rustClamp (128 * 1024) (effectiveL1 isAppleArm l1q)
        (effectiveL2 isAppleArm l2q / 2) := by
  cases isAppleArm <;> rfl

theorem write_io_vectors_eq (sinkWrite : List (List Nat) → Except IoErr Nat)
    (mapped_data : List Nat) :
    (write_mapped_data_vectored sinkWrite mapped_data).io_vectors =
      chunksList BATCH_SIZE mapped_data := by
  cases h : sinkWrite (chunksList BATCH_SIZE mapped_data) <;>
    simp [write_mapped_data_vectored, h]

theorem write_syscalls_eq (sinkWrite : List (List Nat) → Except IoErr Nat)
    (mapped_data : List Nat) :
    (write_mapped_data_vectored sinkWrite mapped_data).syscalls = 1 := by
  cases h : sinkWrite (chunksList BATCH_SIZE mapped_data) <;>
    simp [write_mapped_data_vectored, h]

theorem chunksList_replicate_double (c : Nat) (hc : c ≠ 0) (a : α) :
    chunksList c (List.replicate (2 * c) a) =
      [List.replicate c a, List.replicate c a] := by
  have h2 : List.replicate (2 * c) a ≠ [] := by
    simp only [ne_eq, List.replicate_eq_nil_iff]
    omega
  rw [chunksList_cons c hc _ h2, List.take_replicate, List.drop_replicate]
  have hmin : min c (2 * c) = c := by omega
  have hsub : 2 * c - c = c := by omega
  rw [hmin, hsub]
  have h1 : List.replicate c a ≠ [] := by
    simp only [ne_eq, List.replicate_eq_nil_iff]
    exact hc
  rw [chunksList_cons c hc _ h1, List.take_replicate, List.drop_replicate]
  have hmin2 : min c c = c := by omega
  have hsub2 : c - c = 0 := by omega
  rw [hmin2, hsub2]
  simp [chunksList_nil]

/-- C2: for every chunk size `c > 0` and every view, splitting into chunks
of size `c` yields exactly `⌈n/c⌉` segments, the segment lengths sum to the
view length, and every segment but the last has length exactly `c`. -/
theorem c2_segment_arithmetic (c : Nat) (hc : 0 < c) (xs : List Nat) :
    (chunksList c xs).length = (xs.length + c - 1) / c ∧
    ((chunksList c xs).map List.length).sum = xs.length ∧
    (∀ l ∈ (chunksList c xs).dropLast, l.length = c) :=
  ⟨chunksList_count c (Nat.pos_iff_ne_zero.mp hc) xs,
   chunksList_sum_length c (Nat.pos_iff_ne_zero.mp hc) xs,
   chunksList_dropLast_length c (Nat.pos_iff_ne_zero.mp hc) xs⟩

theorem c2_segment_arithmetic_witness :
    0 < 2 ∧
    ((chunksList 2 ([5, 6, 7] : List Nat)).length =
        (([5, 6, 7] : List Nat).length + 2 - 1) / 2 ∧
      ((chunksList 2 ([5, 6, 7] : List Nat)).map List.length).sum =
        ([5, 6, 7] : List Nat).length ∧
      (∀ l ∈ (chunksList 2 ([5, 6, 7] : List Nat)).dropLast, l.length = 2)) :=
  ⟨by decide, c2_segment_arithmetic 2 (by decide) [5, 6, 7]⟩

/-- C3: whenever the effective L1 bound (after Apple-Silicon precedence and
the 32 KiB fallback) is at most half the effective L2 bound (512 KiB
fallback), `detect_optimal_chunk_size` returns exactly the clamp of the
128 KiB target to `[L1, L2/2]`; the result lies within those bounds, and
the function is deterministic (equal results on repeated calls). -/
theorem c3_chunk_size_clamped (isAppleArm : Bool) (l1q l2q : Option Nat)
    (h : effectiveL1 isAppleArm l1q ≤ effectiveL2 isAppleArm l2q / 2) :
    ∃ r, detect_optimal_chunk_size isAppleArm l1q l2q = some r ∧
      r = max (effectiveL1 isAppleArm l1q)
            (min (128 * 1024) (effectiveL2 isAppleArm l2q / 2)) ∧
      effectiveL1 isAppleArm l1q ≤ r ∧
      r ≤ effectiveL2 isAppleArm l2q / 2 ∧
      detect_optimal_chunk_size isAppleArm l1q l2q =
        detect_optimal_chunk_size isAppleArm l1q l2q := by
  rw [detect_optimal_chunk_size_eq]
  unfold rustClamp
  rw [if_pos h]
  refine ⟨_, rfl, ?_, ?_, ?_, rfl⟩ <;> (split_ifs <;> omega)

theorem c3_chunk_size_clamped_witness :
    effectiveL1 false none ≤ effectiveL2 false none / 2 ∧
    (∃ r, detect_optimal_chunk_size false none none = some r ∧
      r = max (effectiveL1 false none)
            (min (128 * 1024) (effectiveL2 false none / 2)) ∧
      effectiveL1 false none ≤ r ∧
      r ≤ effectiveL2 false none / 2 ∧
      detect_optimal_chunk_size false none none =
        detect_optimal_chunk_size false none none) :=
  ⟨by decide, c3_chunk_size_clamped false none none (by decide)⟩

/-- C9: `detect_optimal_chunk_size` returns a value exactly when the
effective L1 size is at most half the effective L2 size; when
`L1 > L2 / 2` the `clamp` call panics (modelled as `none`) instead of
returning a value. -/
theorem c9_chunk_size_total_iff (isAppleArm : Bool) (l1q l2q : Option Nat) :
    (detect_optimal_chunk_size isAppleArm l1q l2q).isSome ↔
      effectiveL1 isAppleArm l1q ≤ effectiveL2 isAppleArm l2q / 2 := by
  rw [detect_optimal_chunk_size_eq]
  exact rustClamp_isSome _ _ _

/-- C10: `detect_optimal_thread_count` returns 10 on every platform: the
Apple-Silicon branch returns the constant P-core count 10, and the fallback
branch returns the constant 10. -/
theorem c10_thread_count_always_ten (isAppleArm : Bool) :
    detect_optimal_thread_count isAppleArm = 10 := by
  cases isAppleArm <;> rfl

/-- C1 (amended): `write_mapped_data_vectored` splits the source view into
fixed-size contiguous segments of size `BATCH_SIZE` (the compile-time 1 MiB
constant — not `config.chunk_size`), with only the last segment truncated
to the remainder, and submits all segments in a single vectored write
call. -/
theorem c1_write_pass_batches (sinkWrite : List (List Nat) → Except IoErr Nat)
    (mapped_data : List Nat) :
    (write_mapped_data_vectored sinkWrite mapped_data).syscalls = 1 ∧
    (write_mapped_data_vectored sinkWrite mapped_data).io_vectors.flatten =
      mapped_data ∧
    (write_mapped_data_vectored sinkWrite mapped_data).io_vectors.length =
      (mapped_data.length + BATCH_SIZE - 1) / BATCH_SIZE ∧
    ∀ l ∈ (write_mapped_data_vectored sinkWrite mapped_data).io_vectors.dropLast,
      l.length = BATCH_SIZE := by
  have hB : BATCH_SIZE ≠ 0 := by decide
  refine ⟨write_syscalls_eq sinkWrite mapped_data, ?_, ?_, ?_⟩ <;>
    rw [write_io_vectors_eq]
  · exact chunksList_flatten _ hB _
  · exact chunksList_count _ hB _
  · exact chunksList_dropLast_length _ hB _

/-- C1 counterexample: on the fallback platform the configured chunk size
is 128 KiB (131072), but on a 2 MiB view the writer's non-final segment has
length `BATCH_SIZE` = 1 MiB (1048576): the submitted segments are not
`config.chunk_size`-sized. -/
theorem c1_counterexample :
    ¬ (∀ cfg, Config.mkDefault false none none = some cfg →
        ∀ l ∈ (write_mapped_data_vectored (fun _ => Except.ok 0)
            (List.replicate (2 * BATCH_SIZE) 0)).io_vectors.dropLast,
          l.length = cfg.chunk_size) := by
  intro hclaim
  have hcfg : Config.mkDefault false none none =
      some { thread_count := 10, source_file := "test_data.bin",
             chunk_size := 131072 } := by rfl
  have hmem : List.replicate BATCH_SIZE (0 : Nat) ∈
      (write_mapped_data_vectored (fun _ => Except.ok 0)
        (List.replicate (2 * BATCH_SIZE) 0)).io_vectors.dropLast := by
    rw [write_io_vectors_eq,
      chunksList_replicate_double BATCH_SIZE (by decide) 0]
    simp
  have hlen := hclaim _ hcfg _ hmem
  rw [List.length_replicate] at hlen
  exact absurd hlen (by decide)

/-- C4: for a sample of delta = 1000 writes over elapsed = 2 time units
with a source of 2 · 1024³ bytes, the monitor computes exactly 500
writes per second and exactly 1000 in the GiB/s reporting unit.  Every
`f64` operation the source performs at these inputs is exact (all
intermediates are integers below 2⁵³ divided by powers of two), so the
exact-rational model coincides with the `f64` computation here. -/
theorem c4_throughput_exact :
    monitorStep (2 * 1024 ^ 3) { last_count := 0, last_time := 0 }
        { current_count := 1000, current_time := 2 } =
      ({ last_count := 1000, last_time := 2 },
        some { total_writes := 1000, writes_per_sec := 500,
               gb_per_sec := 1000 }) := by
  norm_num [monitorStep]

theorem BenchStep.counter_le {workerCount : Nat} {s t : PoolState}
    (h : BenchStep workerCount s t) : s.counter ≤ t.counter := by
  cases h with
  | workerPass i hi s => exact Nat.le_succ _
  | monitorLoad s => exact le_refl _

/-- C5: along every execution trace of the system with any number of
workers ≥ 1 — every step is either a worker's post-pass
`increment_global_metrics` or a monitor load — the shared counter is
monotonically non-decreasing; no step decrements or resets it. -/
theorem c5_counter_monotone (workerCount : Nat) (_hW : 1 ≤ workerCount)
    (s s' : PoolState)
    (h : Relation.ReflTransGen (BenchStep workerCount) s s') :
    s.counter ≤ s'.counter := by
  induction h with
  | refl => exact le_refl _
  | tail _ hstep ih => exact le_trans ih hstep.counter_le

theorem c5_counter_monotone_witness :
    1 ≤ 1 ∧
    Relation.ReflTransGen (BenchStep 1) { counter := 0 }
      (increment_global_metrics { counter := 0 }) ∧
    ({ counter := 0 } : PoolState).counter ≤
      (increment_global_metrics { counter := 0 }).counter :=
  ⟨le_refl 1,
   Relation.ReflTransGen.single (BenchStep.workerPass 0 (by decide) _),
   c5_counter_monotone 1 (le_refl 1) { counter := 0 } _
     (Relation.ReflTransGen.single (BenchStep.workerPass 0 (by decide) _))⟩

theorem config_source_file (isAppleArm : Bool) (l1q l2q : Option Nat)
    (cfg : Config) (h : Config.mkDefault isAppleArm l1q l2q = some cfg) :
    cfg.source_file = "test_data.bin" := by
  unfold Config.mkDefault at h
  cases hd : detect_optimal_chunk_size isAppleArm l1q l2q <;>
    rw [hd] at h <;> simp_all
  exact h.symm ▸ rfl

/-- C6: when opening the source path fails, `from_file` returns that error
(a fatal startup error at `.expect`), and the startup path spawns zero
workers: `spawn_writers` is never reached. -/
theorem c6_failed_open_no_workers (sys : SysEnv) (isAppleArm : Bool)
    (l1q l2q : Option Nat) (e : IoErr)
    (h : sys.openFile "test_data.bin" = Except.error e) :
    MappedDataSource.from_file sys "test_data.bin" = Except.error e ∧
    mainSpawnedWorkers sys isAppleArm l1q l2q = 0 := by
  have hff : MappedDataSource.from_file sys "test_data.bin" =
      Except.error e := by
    unfold MappedDataSource.from_file
    rw [h]
  refine ⟨hff, ?_⟩
  unfold mainSpawnedWorkers
  cases hcfg : Config.mkDefault isAppleArm l1q l2q with
  | none => rfl
  | some cfg =>
    have hsf := config_source_file _ _ _ _ hcfg
    simp only [hsf, hff]

theorem c6_failed_open_no_workers_witness :
    sysOpenFails.openFile "test_data.bin" = Except.error { code := 2 } ∧
    (MappedDataSource.from_file sysOpenFails "test_data.bin" =
        Except.error { code := 2 } ∧
      mainSpawnedWorkers sysOpenFails false none none = 0) :=
  ⟨rfl, c6_failed_open_no_workers sysOpenFails false none none
    { code := 2 } rfl⟩

/-- C7: in a monitor iteration whose elapsed time is not positive, the
update is skipped: no division happens (no output is produced) and the
stored previous count and previous time are returned unchanged. -/
theorem c7_monitor_skips_nonpositive_elapsed (file_size : Nat)
    (s : MonitorState) (smp : MonitorSample)
    (h : smp.current_time - s.last_time ≤ 0) :
    monitorStep file_size s smp = (s, none) := by
  unfold monitorStep
  rw [if_neg (not_lt.mpr h)]

theorem c7_monitor_skips_nonpositive_elapsed_witness :
    (({ current_count := 7, current_time := 3 } : MonitorSample).current_time -
        ({ last_count := 0, last_time := 5 } : MonitorState).last_time ≤ 0) ∧
    monitorStep 0 { last_count := 0, last_time := 5 }
        { current_count := 7, current_time := 3 } =
      ({ last_count := 0, last_time := 5 }, none) :=
  ⟨by norm_num,
   c7_monitor_skips_nonpositive_elapsed 0 { last_count := 0, last_time := 5 }
     { current_count := 7, current_time := 3 } (by norm_num)⟩

/-- C8: whenever `write_mapped_data_vectored` returns at all (i.e. the
`unwrap_unchecked` on the sink's result was not undefined behaviour), the
returned value is `Ok(())`: a sink write error is never propagated to the
caller, whatever the sink does. -/
theorem c8_write_result_ok (sinkWrite : List (List Nat) → Except IoErr Nat)
    (mapped_data : List Nat) (r : Except IoErr Unit)
    (h : (write_mapped_data_vectored sinkWrite mapped_data).result = some r) :
    r = Except.ok () := by
  cases hE : sinkWrite (chunksList BATCH_SIZE mapped_data) <;>
    simp [write_mapped_data_vectored, hE] at h
  exact h.symm

theorem c8_write_result_ok_witness :
    (write_mapped_data_vectored (fun _ => Except.ok 0) [1, 2, 3]).result =
        some (Except.ok ()) ∧
    (Except.ok () : Except IoErr Unit) = Except.ok () :=
  ⟨rfl, c8_write_result_ok (fun _ => Except.ok 0) [1, 2, 3]
    (Except.ok ()) rfl⟩
